import Mathlib

/-!
Shallow embedding of `src/main.rs` (a bevy/rapier 2D game prototype).

The `f32` values of the source (velocities, delta times, lerp factors) are
modelled as real numbers; `glam`'s `Vec2::lerp` is the unclamped
`a + (b - a) * s`, and `Vec2::normalize_or_zero` divides by the Euclidean
length, or returns zero for the zero vector, exactly as in `glam`.
-/

namespace RobGame

open scoped Classical

/-- 2D vector of reals, modelling `glam::Vec2` (`f32` components). -/
structure Vec2 where
  x : ℝ
  y : ℝ

/-- `Vec2::ZERO`. -/
def Vec2.zero : Vec2 := ⟨0, 0⟩

/-- `glam`'s unclamped `Vec2::lerp(self, rhs, s) = self + (rhs - self) * s`. -/
def Vec2.lerp (a b : Vec2) (s : ℝ) : Vec2 :=
  ⟨a.x + (b.x - a.x) * s, a.y + (b.y - a.y) * s⟩

/-- Componentwise `Vec2 * scalar` (used for `input_vector * move_settings.speed`). -/
def Vec2.smul (v : Vec2) (c : ℝ) : Vec2 := ⟨v.x * c, v.y * c⟩

/-- Squared Euclidean length. -/
def Vec2.normSq (v : Vec2) : ℝ := v.x ^ 2 + v.y ^ 2

/-- Euclidean length, `Vec2::length`. -/
noncomputable def Vec2.length (v : Vec2) : ℝ := Real.sqrt v.normSq

/-- `Vec2::normalize_or_zero`: `v / |v|` for nonzero `v`, zero otherwise. -/
noncomputable def Vec2.normalizeOrZero (v : Vec2) : Vec2 :=
  if v = Vec2.zero then Vec2.zero else ⟨v.x / v.length, v.y / v.length⟩

/-- `enum FacingDirection` from `main.rs`. -/
inductive FacingDirection
  | LEFT
  | RIGHT
  | UP
  | DOWN
deriving DecidableEq

/-- The four direction key states read each tick (KeyA/KeyD/KeyW/KeyS). -/
structure Keys where
  left : Bool
  right : Bool
  up : Bool
  down : Bool
deriving DecidableEq

/-- `struct MoveSettings` component. -/
structure MoveSettings where
  is_walking : Bool
  speed : ℝ
  accel : ℝ
  fric : ℝ

/-- The three player components mutated by `get_player_input`:
`Velocity`, `MoveSettings`, `FaceDirection`. -/
structure PlayerState where
  vel : Vec2
  settings : MoveSettings
  facing : FacingDirection

/-- The key-scan of `get_player_input` (lines 180-197): starting from
`input_vector = Vec2::ZERO`, the four `if keyboard.pressed` blocks run
in the fixed order left (A), right (D), up (W), down (S); each assigns
its axis of the input vector and overwrites the facing direction. -/
def resolveInput (k : Keys) (f0 : FacingDirection) : Vec2 × FacingDirection :=
  let s1 : Vec2 × FacingDirection :=
    if k.left then (⟨-1, Vec2.zero.y⟩, FacingDirection.LEFT) else (Vec2.zero, f0)
  let s2 : Vec2 × FacingDirection :=
    if k.right then (⟨1, s1.1.y⟩, FacingDirection.RIGHT) else s1
  let s3 : Vec2 × FacingDirection :=
    if k.up then (⟨s2.1.x, 1⟩, FacingDirection.UP) else s2
  let s4 : Vec2 × FacingDirection :=
    if k.down then (⟨s3.1.x, -1⟩, FacingDirection.DOWN) else s3
  s4

/-- One tick of the `get_player_input` system body (lines 179-213), acting on
the player's queried components.  After the key scan the input vector is
normalized (`normalize_or_zero`); if it is nonzero the velocity is lerped
toward `input * speed` with parameter `accel * delta_seconds` and the walking
flag is set, otherwise the velocity is lerped toward zero with parameter
`fric * delta_seconds` and the walking flag is cleared. -/
noncomputable def get_player_input (k : Keys) (dt : ℝ) (p : PlayerState) : PlayerState :=
  let r := resolveInput k p.facing
  let input := r.1.normalizeOrZero
  if input ≠ Vec2.zero then
    { p with
        facing := r.2
        settings := { p.settings with is_walking := true }
        vel := p.vel.lerp (input.smul p.settings.speed) (p.settings.accel * dt) }
  else
    { p with
        facing := r.2
        settings := { p.settings with is_walking := false }
        vel := p.vel.lerp Vec2.zero (p.settings.fric * dt) }

/-- `MoveSettings` as spawned on the player in `setup` (lines 160-165). -/
def setupMoveSettings : MoveSettings :=
  { is_walking := false, speed := 5, accel := 20, fric := 15 }

/-- The player's movement state right after `setup`: velocity `Vec2::ZERO`,
facing `DOWN`, the `setup` move settings. -/
def playerStart : PlayerState :=
  { vel := Vec2.zero, settings := setupMoveSettings, facing := FacingDirection.DOWN }

/-- A player state with the `setup` tuning and a rightward velocity (1, 0). -/
def playerMoving : PlayerState :=
  { vel := ⟨1, 0⟩, settings := setupMoveSettings, facing := FacingDirection.DOWN }

/-- Only the D (right) key held. -/
def kRight : Keys := ⟨false, true, false, false⟩

/-- Only the A (left) key held. -/
def kLeft : Keys := ⟨true, false, false, false⟩

/-- Only the W (up) key held. -/
def kUp : Keys := ⟨false, false, true, false⟩

/-- Only the S (down) key held. -/
def kDown : Keys := ⟨false, false, false, true⟩

/-- No direction key held. -/
def kNone : Keys := ⟨false, false, false, false⟩

/-- Iterated ticks of `get_player_input`: `runTicks ks dt p n` is the player
state after `n` ticks, where tick `i` sees the key state `ks i` and a fixed
delta time `dt`. -/
noncomputable def runTicks (ks : ℕ → Keys) (dt : ℝ) (p : PlayerState) : ℕ → PlayerState
  | 0 => p
  | n + 1 => get_player_input (ks n) dt (runTicks ks dt p n)

/-- Exactly one of the four direction keys is held. -/
def singleKey (k : Keys) : Prop :=
  k = kLeft ∨ k = kRight ∨ k = kUp ∨ k = kDown

/-- `TimerMode` of bevy (only `Repeating` is used by this program). -/
inductive TimerMode
  | Once
  | Repeating
deriving DecidableEq

/-- Bevy `Timer` state: a duration, accumulated elapsed time, and a mode. -/
structure Timer where
  duration : ℝ
  elapsed : ℝ
  mode : TimerMode

/-- Engine behaviour of `timer.tick(delta)` for a `Repeating` timer within one
period: the elapsed time accumulates, and wraps by one duration when it
reaches the duration (the expiry observed by `just_finished`). -/
noncomputable def Timer.tick (t : Timer) (dt : ℝ) : Timer :=
  if t.duration ≤ t.elapsed + dt then
    { t with elapsed := t.elapsed + dt - t.duration }
  else
    { t with elapsed := t.elapsed + dt }

/-- `timer.just_finished()` after `timer.tick(dt)`: the accumulated time
reached the duration during this tick. -/
def Timer.justFinishedAfter (t : Timer) (dt : ℝ) : Prop :=
  t.duration ≤ t.elapsed + dt

/-- `struct AnimIndices` from `main.rs`. -/
structure AnimIndices where
  left : ℕ
  right : ℕ
  up : ℕ
  down : ℕ
deriving DecidableEq

/-- `struct AnimationInd` component: walk and idle base indices. -/
structure AnimationInd where
  walk : AnimIndices
  idle : AnimIndices
deriving DecidableEq

/-- The walk `dir_offset` match of `animate_sprites` (lines 236-241). -/
def walkOffset (i : AnimationInd) : FacingDirection → ℕ
  | FacingDirection.LEFT => i.walk.left
  | FacingDirection.RIGHT => i.walk.right
  | FacingDirection.UP => i.walk.up
  | FacingDirection.DOWN => i.walk.down

/-- The idle `dir_offset` match of `animate_sprites` (lines 245-250). -/
def idleOffset (i : AnimationInd) : FacingDirection → ℕ
  | FacingDirection.LEFT => i.idle.left
  | FacingDirection.RIGHT => i.idle.right
  | FacingDirection.UP => i.idle.up
  | FacingDirection.DOWN => i.idle.down

/-- The base offset of the cycle selected by gait and facing. -/
def cycleOffset (i : AnimationInd) (walking : Bool) (f : FacingDirection) : ℕ :=
  if walking then walkOffset i f else idleOffset i f

/-- Cycle length: 8 frames walking, 4 frames idle. -/
def cycleLen (walking : Bool) : ℕ := if walking then 8 else 4

/-- The frame-index update performed inside `if timer.just_finished()`
(lines 235-253): `(index + 1) % 8 + dir_offset` when walking,
`(index + 1) % 4 + dir_offset` when idle. -/
def nextIndex (i : AnimationInd) (walking : Bool) (f : FacingDirection) (idx : ℕ) : ℕ :=
  if walking then (idx + 1) % 8 + walkOffset i f
  else (idx + 1) % 4 + idleOffset i f

/-- The player components read or written by `animate_sprites`:
`AnimationInd`, `AnimationTimer`, `TextureAtlas::index`, `MoveSettings`,
`FaceDirection`. -/
structure SpriteState where
  indices : AnimationInd
  timer : Timer
  atlasIndex : ℕ
  settings : MoveSettings
  facing : FacingDirection

/-- One invocation of the `animate_sprites` loop body (lines 232-253) on one
entity: tick the timer by the frame delta; if it just finished, advance the
frame index within the cycle selected by the current gait and facing;
otherwise leave the index unchanged. -/
noncomputable def animate_sprites (dt : ℝ) (s : SpriteState) : SpriteState :=
  let t := s.timer.tick dt
  if s.timer.duration ≤ s.timer.elapsed + dt then
    { s with
        timer := t
        atlasIndex := nextIndex s.indices s.settings.is_walking s.facing s.atlasIndex }
  else
    { s with timer := t }

/-- The `AnimationInd` literal built in `setup` (lines 85-98). -/
def setupAnimationInd : AnimationInd :=
  { walk := { left := 8, right := 0, up := 24, down := 16 }
    idle := { left := 40, right := 32, up := 56, down := 48 } }

/-- The `AnimationTimer` spawned in `setup` (line 158):
`Timer::from_seconds(0.1, TimerMode::Repeating)`. -/
noncomputable def setupTimer : Timer :=
  { duration := 1 / 10, elapsed := 0, mode := TimerMode.Repeating }

/-- The player components given at spawn in `setup` (lines 146-171). -/
structure PlayerSpawn where
  atlasIndex : ℕ
  indices : AnimationInd
  timer : Timer
  settings : MoveSettings
  facing : FacingDirection
  vel : Vec2

/-- The player entity as spawned by `setup`: `TextureAtlas` index 0, the
`setup` animation indices and timer, the `setup` move settings, facing
`DOWN`, velocity `Vec2::ZERO`. -/
noncomputable def setupPlayer : PlayerSpawn :=
  { atlasIndex := 0
    indices := setupAnimationInd
    timer := setupTimer
    settings := setupMoveSettings
    facing := FacingDirection.DOWN
    vel := Vec2.zero }

/-- A sprite state mid-walk facing LEFT (frame 5 of the walk-left cycle),
with the repeating 0.1s timer half elapsed. -/
noncomputable def spriteWalkLeft : SpriteState :=
  { indices := setupAnimationInd
    timer := { duration := 1 / 10, elapsed := 1 / 20, mode := TimerMode.Repeating }
    atlasIndex := 13
    settings := { is_walking := true, speed := 5, accel := 20, fric := 15 }
    facing := FacingDirection.LEFT }

/-- A sprite state that was walking DOWN (frame index 19 = walk-down base 16
plus phase 3) and has just switched to idle facing UP, with the repeating
0.1s timer half elapsed. -/
noncomputable def spriteIdleUp : SpriteState :=
  { indices := setupAnimationInd
    timer := { duration := 1 / 10, elapsed := 1 / 20, mode := TimerMode.Repeating }
    atlasIndex := 19
    settings := setupMoveSettings
    facing := FacingDirection.UP }

/-- The kind of each entity spawned by `setup`, in spawn order: the camera,
the UI text, the two obstacle boxes, and the player. -/
inductive SpawnKind
  | camera
  | ui
  | obstacle
  | player
deriving DecidableEq, BEq

/-- The five `commands.spawn` calls of `setup` (lines 100-171), in order. -/
def setupSpawnKinds : List SpawnKind :=
  [SpawnKind.camera, SpawnKind.ui, SpawnKind.obstacle, SpawnKind.obstacle,
    SpawnKind.player]

/-- The abort raised by bevy's `Query::single`/`single_mut` when the query
does not match exactly one entity. -/
inductive QueryError
  | notExactlyOne
deriving DecidableEq

/-- Bevy `Query::single`/`single_mut`: succeeds exactly when the query
matches one entity, otherwise panics (modelled as `Except.error`). -/
def singleMut {α : Type} : List α → Except QueryError α
  | [a] => Except.ok a
  | _ => Except.error QueryError.notExactlyOne

/-- The `get_player_input` system at query level: `player_vel.single_mut()`
is asserted before anything else (line 179); on failure the process aborts
with no component modified, on success the tick body runs. -/
noncomputable def get_player_input_system (players : List PlayerState) (k : Keys)
    (dt : ℝ) : Except QueryError PlayerState :=
  (singleMut players).map (get_player_input k dt)

/-- 3D vector of reals, modelling `glam::Vec3`. -/
structure Vec3 where
  x : ℝ
  y : ℝ
  z : ℝ

/-- `glam`'s unclamped `Vec3::lerp`. -/
def Vec3.lerp (a b : Vec3) (s : ℝ) : Vec3 :=
  ⟨a.x + (b.x - a.x) * s, a.y + (b.y - a.y) * s, a.z + (b.z - a.z) * s⟩

/-- `struct CameraValues` component. -/
structure CameraValues where
  lerp_factor : ℝ

/-- The camera components touched by `update_camera`: its `Transform`
translation and `CameraValues`. -/
structure CameraState where
  translation : Vec3
  values : CameraValues

/-- The body of `update_camera` after both queries succeed (lines 266-271):
lerp the camera translation toward the player's x/y (camera z kept) with
parameter `delta_seconds * lerp_factor`. -/
def update_camera_step (cam : CameraState) (playerTranslation : Vec3) (dt : ℝ) :
    CameraState :=
  let dir : Vec3 := ⟨playerTranslation.x, playerTranslation.y, cam.translation.z⟩
  { cam with translation := cam.translation.lerp dir (dt * cam.values.lerp_factor) }

/-- The `update_camera` system at query level: `camera.single_mut()`
(line 263) and `player.single()` (line 264) are asserted before any state is
modified; either failing aborts the process. -/
def update_camera_system (cams : List CameraState) (players : List Vec3) (dt : ℝ) :
    Except QueryError CameraState :=
  (singleMut cams).bind fun c =>
    (singleMut players).map fun p => update_camera_step c p dt

/-- The camera entity as spawned by `setup` (lines 100-104): default
transform, `lerp_factor` 2.0. -/
def setupCamera : CameraState :=
  { translation := ⟨0, 0, 0⟩, values := { lerp_factor := 2 } }

/-! ### Helper lemmas -/

theorem Vec2.eq_iff (v w : Vec2) : v = w ↔ v.x = w.x ∧ v.y = w.y := by
  cases v; cases w; simp

theorem Vec2.normSq_nonneg (v : Vec2) : 0 ≤ v.normSq := by
  have hx := sq_nonneg v.x
  have hy := sq_nonneg v.y
  simp only [Vec2.normSq]
  linarith

theorem Vec2.normSq_pos (v : Vec2) (h : v ≠ Vec2.zero) : 0 < v.normSq := by
  rcases lt_or_eq_of_le (Vec2.normSq_nonneg v) with hlt | heq
  · exact hlt
  · exfalso
    apply h
    have hs : v.x ^ 2 + v.y ^ 2 = 0 := by
      simpa [Vec2.normSq] using heq.symm
    have hx : v.x = 0 := by nlinarith [sq_nonneg v.x, sq_nonneg v.y]
    have hy : v.y = 0 := by nlinarith [sq_nonneg v.x, sq_nonneg v.y]
    rw [Vec2.eq_iff]
    simp [Vec2.zero, hx, hy]

theorem Vec2.length_nonneg (v : Vec2) : 0 ≤ v.length :=
  Real.sqrt_nonneg _

theorem Vec2.length_pos (v : Vec2) (h : v ≠ Vec2.zero) : 0 < v.length :=
  Real.sqrt_pos.mpr (Vec2.normSq_pos v h)

theorem Vec2.sq_length (v : Vec2) : v.length ^ 2 = v.normSq :=
  Real.sq_sqrt (Vec2.normSq_nonneg v)

/-- Normalizing a nonzero vector yields a unit-length vector. -/
theorem normalizeOrZero_length (v : Vec2) (h : v ≠ Vec2.zero) :
    v.normalizeOrZero.length = 1 := by
  have hpos := Vec2.length_pos v h
  have hne : v.length ≠ 0 := ne_of_gt hpos
  have hsq : v.normalizeOrZero.normSq = 1 := by
    simp only [Vec2.normalizeOrZero, if_neg h, Vec2.normSq, div_pow]
    rw [div_add_div_same]
    rw [Vec2.sq_length v]
    exact div_self (ne_of_gt (Vec2.normSq_pos v h))
  simp only [Vec2.length, hsq, Real.sqrt_one]

/-- `length ⟨a, 0⟩ = |a|`, `length ⟨0, a⟩ = |a|`. -/
theorem Vec2.length_axis_x (a : ℝ) : Vec2.length ⟨a, 0⟩ = |a| := by
  simp [Vec2.length, Vec2.normSq, Real.sqrt_sq_eq_abs]

theorem Vec2.length_axis_y (a : ℝ) : Vec2.length ⟨0, a⟩ = |a| := by
  simp [Vec2.length, Vec2.normSq, Real.sqrt_sq_eq_abs]

theorem Vec2.length_zero : Vec2.length Vec2.zero = 0 := by
  simp [Vec2.length, Vec2.normSq, Vec2.zero]

theorem normalizeOrZero_zero : Vec2.normalizeOrZero Vec2.zero = Vec2.zero := by
  simp [Vec2.normalizeOrZero]

/-- The four unit axis vectors normalize to themselves. -/
theorem normalizeOrZero_right : Vec2.normalizeOrZero ⟨1, 0⟩ = ⟨1, 0⟩ := by
  have h : (⟨1, 0⟩ : Vec2) ≠ Vec2.zero := by
    simp [Vec2.zero]
  simp [Vec2.normalizeOrZero, if_neg h, Vec2.length_axis_x]

theorem normalizeOrZero_left : Vec2.normalizeOrZero ⟨-1, 0⟩ = ⟨-1, 0⟩ := by
  have h : (⟨-1, 0⟩ : Vec2) ≠ Vec2.zero := by
    simp [Vec2.zero]
  simp [Vec2.normalizeOrZero, if_neg h, Vec2.length_axis_x]

theorem normalizeOrZero_up : Vec2.normalizeOrZero ⟨0, 1⟩ = ⟨0, 1⟩ := by
  have h : (⟨0, 1⟩ : Vec2) ≠ Vec2.zero := by
    simp [Vec2.zero]
  simp [Vec2.normalizeOrZero, if_neg h, Vec2.length_axis_y]

theorem normalizeOrZero_down : Vec2.normalizeOrZero ⟨0, -1⟩ = ⟨0, -1⟩ := by
  have h : (⟨0, -1⟩ : Vec2) ≠ Vec2.zero := by
    simp [Vec2.zero]
  simp [Vec2.normalizeOrZero, if_neg h, Vec2.length_axis_y]

/-- Evaluation of the key scan on the five distinguished key states. -/
theorem resolveInput_kNone (f : FacingDirection) :
    resolveInput kNone f = (Vec2.zero, f) := by
  simp [resolveInput, kNone]

theorem resolveInput_kLeft (f : FacingDirection) :
    resolveInput kLeft f = (⟨-1, 0⟩, FacingDirection.LEFT) := by
  simp [resolveInput, kLeft, Vec2.zero]

theorem resolveInput_kRight (f : FacingDirection) :
    resolveInput kRight f = (⟨1, 0⟩, FacingDirection.RIGHT) := by
  simp [resolveInput, kRight, Vec2.zero]

theorem resolveInput_kUp (f : FacingDirection) :
    resolveInput kUp f = (⟨0, 1⟩, FacingDirection.UP) := by
  simp [resolveInput, kUp, Vec2.zero]

theorem resolveInput_kDown (f : FacingDirection) :
    resolveInput kDown f = (⟨0, -1⟩, FacingDirection.DOWN) := by
  simp [resolveInput, kDown, Vec2.zero]

/-- When the key scan resolves to a vector that is fixed by normalization and
nonzero, `get_player_input` takes the walking branch. -/
theorem get_player_input_walking (k : Keys) (dt : ℝ) (p : PlayerState) (w : Vec2)
    (f : FacingDirection) (hres : resolveInput k p.facing = (w, f))
    (hw : w.normalizeOrZero = w) (hwne : w ≠ Vec2.zero) :
    get_player_input k dt p =
      { p with
          facing := f
          settings := { p.settings with is_walking := true }
          vel := p.vel.lerp (w.smul p.settings.speed) (p.settings.accel * dt) } := by
  simp only [get_player_input, hres, hw]
  rw [if_pos hwne]

/-- With no key held, `get_player_input` takes the idle branch: the walking
flag clears and each velocity component is scaled by `1 - fric * dt`. -/
theorem get_player_input_kNone (dt : ℝ) (p : PlayerState) :
    get_player_input kNone dt p =
      { p with
          settings := { p.settings with is_walking := false }
          vel := ⟨(1 - p.settings.fric * dt) * p.vel.x,
                  (1 - p.settings.fric * dt) * p.vel.y⟩ } := by
  simp only [get_player_input, resolveInput_kNone, normalizeOrZero_zero]
  rw [if_neg (by simp)]
  simp only [Vec2.lerp, Vec2.zero]
  have hx : p.vel.x + (0 - p.vel.x) * (p.settings.fric * dt) =
      (1 - p.settings.fric * dt) * p.vel.x := by ring
  have hy : p.vel.y + (0 - p.vel.y) * (p.settings.fric * dt) =
      (1 - p.settings.fric * dt) * p.vel.y := by ring
  rw [hx, hy]

/-- `get_player_input` leaves the tuning constants of `MoveSettings`
unchanged: only `is_walking` is written. -/
theorem get_player_input_settings (k : Keys) (dt : ℝ) (p : PlayerState) :
    (get_player_input k dt p).settings.speed = p.settings.speed ∧
    (get_player_input k dt p).settings.accel = p.settings.accel ∧
    (get_player_input k dt p).settings.fric = p.settings.fric := by
  simp only [get_player_input]
  split <;> simp

/-- Lerping from inside the disc of radius `c` toward a point on its boundary
with a parameter in `[0, 1]` stays inside the disc (convexity). -/
theorem lerp_normSq_le (vx vy wx wy t c : ℝ) (hv : vx ^ 2 + vy ^ 2 ≤ c ^ 2)
    (hw : wx ^ 2 + wy ^ 2 = c ^ 2) (ht0 : 0 ≤ t) (ht1 : t ≤ 1) :
    (vx + (wx - vx) * t) ^ 2 + (vy + (wy - vy) * t) ^ 2 ≤ c ^ 2 := by
  nlinarith [sq_nonneg (vx - wx), sq_nonneg (vy - wy),
    mul_nonneg ht0 (sub_nonneg.mpr ht1), sq_nonneg (1 - t), sq_nonneg t,
    mul_nonneg ht0 ht0]

/-- `|v| ≤ c` is equivalent to `normSq v ≤ c²` for nonnegative `c`. -/
theorem Vec2.length_le_iff (v : Vec2) (c : ℝ) (hc : 0 ≤ c) :
    v.length ≤ c ↔ v.normSq ≤ c ^ 2 := by
  constructor
  · intro h
    calc v.normSq = v.length ^ 2 := (Vec2.sq_length v).symm
      _ ≤ c ^ 2 := by nlinarith [Vec2.length_nonneg v]
  · intro h
    calc v.length = Real.sqrt v.normSq := rfl
      _ ≤ Real.sqrt (c ^ 2) := Real.sqrt_le_sqrt h
      _ = c := Real.sqrt_sq hc

/-- Scaling a vector by a nonnegative factor scales its length. -/
theorem Vec2.length_scale (c : ℝ) (v : Vec2) (hc : 0 ≤ c) :
    Vec2.length ⟨c * v.x, c * v.y⟩ = c * v.length := by
  simp only [Vec2.length, Vec2.normSq]
  rw [show (c * v.x) ^ 2 + (c * v.y) ^ 2 = c ^ 2 * (v.x ^ 2 + v.y ^ 2) by ring]
  rw [Real.sqrt_mul (sq_nonneg c), Real.sqrt_sq hc]

/-- The tuning constants survive any number of `get_player_input` ticks. -/
theorem runTicks_settings (ks : ℕ → Keys) (dt : ℝ) (p : PlayerState) (n : ℕ) :
    (runTicks ks dt p n).settings.speed = p.settings.speed ∧
    (runTicks ks dt p n).settings.accel = p.settings.accel ∧
    (runTicks ks dt p n).settings.fric = p.settings.fric := by
  induction n with
  | zero => exact ⟨rfl, rfl, rfl⟩
  | succ n ih =>
    have h := get_player_input_settings (ks n) dt (runTicks ks dt p n)
    exact ⟨h.1.trans ih.1, h.2.1.trans ih.2.1, h.2.2.trans ih.2.2⟩

/-- One walking tick with a single key held keeps the squared speed within
`speed²`, provided the lerp parameter `accel * dt` lies in `[0, 1]`. -/
theorem get_player_input_singleKey_normSq (k : Keys) (dt : ℝ) (p : PlayerState)
    (hk : singleKey k) (ht0 : 0 ≤ p.settings.accel * dt)
    (ht1 : p.settings.accel * dt ≤ 1)
    (hv : p.vel.normSq ≤ p.settings.speed ^ 2) :
    (get_player_input k dt p).vel.normSq ≤ p.settings.speed ^ 2 := by
  have hstep :
      ∀ (w : Vec2) (f : FacingDirection), resolveInput k p.facing = (w, f) →
        w.normalizeOrZero = w → w ≠ Vec2.zero →
        w.normSq = 1 →
        (get_player_input k dt p).vel.normSq ≤ p.settings.speed ^ 2 := by
    intro w f hres hnorm hne hunit
    rw [get_player_input_walking k dt p w f hres hnorm hne]
    simp only [Vec2.lerp, Vec2.smul, Vec2.normSq] at hv ⊢
    apply lerp_normSq_le _ _ _ _ _ _ hv _ ht0 ht1
    have : w.x ^ 2 + w.y ^ 2 = 1 := hunit
    nlinarith [this]
  rcases hk with hk | hk | hk | hk <;> subst hk
  · exact hstep ⟨-1, 0⟩ FacingDirection.LEFT (resolveInput_kLeft _)
      normalizeOrZero_left (by simp [Vec2.zero]) (by norm_num [Vec2.normSq])
  · exact hstep ⟨1, 0⟩ FacingDirection.RIGHT (resolveInput_kRight _)
      normalizeOrZero_right (by simp [Vec2.zero]) (by norm_num [Vec2.normSq])
  · exact hstep ⟨0, 1⟩ FacingDirection.UP (resolveInput_kUp _)
      normalizeOrZero_up (by simp [Vec2.zero]) (by norm_num [Vec2.normSq])
  · exact hstep ⟨0, -1⟩ FacingDirection.DOWN (resolveInput_kDown _)
      normalizeOrZero_down (by simp [Vec2.zero]) (by norm_num [Vec2.normSq])

/-- `single`/`single_mut` succeeds exactly on one-element queries. -/
theorem singleMut_ok_iff {α : Type} (l : List α) :
    (∃ a, singleMut l = Except.ok a) ↔ l.length = 1 := by
  rcases l with _ | ⟨a, _ | ⟨b, t⟩⟩ <;> simp [singleMut]

/-- `single`/`single_mut` panics on any other query size. -/
theorem singleMut_error {α : Type} (l : List α) (h : l.length ≠ 1) :
    singleMut l = Except.error QueryError.notExactlyOne := by
  rcases l with _ | ⟨a, _ | ⟨b, t⟩⟩ <;> simp_all [singleMut]

/-! ### Claim theorems -/

/-- C1: For every fixed tick of `get_player_input`, if the resolved
(normalized) input direction is non-zero the stored velocity becomes
`lerp(old, direction * speed, accel * dt)`, and if it is zero it becomes
`lerp(old, (0,0), fric * dt)`. -/
theorem C1_velocity_update :
    (∀ (k : Keys) (dt : ℝ) (p : PlayerState),
      (resolveInput k p.facing).1.normalizeOrZero ≠ Vec2.zero →
      (get_player_input k dt p).vel =
        p.vel.lerp
          (((resolveInput k p.facing).1.normalizeOrZero).smul p.settings.speed)
          (p.settings.accel * dt)) ∧
    (∀ (k : Keys) (dt : ℝ) (p : PlayerState),
      (resolveInput k p.facing).1.normalizeOrZero = Vec2.zero →
      (get_player_input k dt p).vel =
        p.vel.lerp Vec2.zero (p.settings.fric * dt)) := by
  constructor
  · intro k dt p h
    simp only [get_player_input]
    rw [if_pos h]
  · intro k dt p h
    simp only [get_player_input]
    rw [if_neg (by simp [h])]

/-- Witness for C1 at a concrete input: right key held (nonzero direction)
and no key held (zero direction), from the `setup` state at `dt = 0.1`. -/
theorem C1_velocity_update_witness :
    ((resolveInput kRight playerStart.facing).1.normalizeOrZero ≠ Vec2.zero ∧
      (get_player_input kRight (1 / 10) playerStart).vel =
        playerStart.vel.lerp
          (((resolveInput kRight playerStart.facing).1.normalizeOrZero).smul
            playerStart.settings.speed)
          (playerStart.settings.accel * (1 / 10))) ∧
    ((resolveInput kNone playerStart.facing).1.normalizeOrZero = Vec2.zero ∧
      (get_player_input kNone (1 / 10) playerStart).vel =
        playerStart.vel.lerp Vec2.zero (playerStart.settings.fric * (1 / 10))) := by
  have h1 : (resolveInput kRight playerStart.facing).1.normalizeOrZero ≠ Vec2.zero := by
    rw [resolveInput_kRight]
    simp [normalizeOrZero_right, Vec2.zero]
  have h2 : (resolveInput kNone playerStart.facing).1.normalizeOrZero = Vec2.zero := by
    rw [resolveInput_kNone]
    exact normalizeOrZero_zero
  exact ⟨⟨h1, C1_velocity_update.1 kRight (1 / 10) playerStart h1⟩,
    ⟨h2, C1_velocity_update.2 kNone (1 / 10) playerStart h2⟩⟩

/-- C2 (counterexample): at the claimed scenario (rest, right key, one tick,
`dt = 0.1`, `speed = 5`, `accel = 20`) the lerp parameter `accel * delta` is
2.0 (200%), not 20%, and the resulting velocity is not the 20%-lerp value
`lerp((0,0), (5,0), 0.2) = (1,0)`. -/
theorem C2_counterexample :
    playerStart.settings.accel * (1 / 10) ≠ 1 / 5 ∧
    (get_player_input kRight (1 / 10) playerStart).vel ≠
      playerStart.vel.lerp ⟨5, 0⟩ (1 / 5) := by
  have hmain := get_player_input_walking kRight (1 / 10) playerStart ⟨1, 0⟩
    FacingDirection.RIGHT (resolveInput_kRight _) normalizeOrZero_right
    (by simp [Vec2.zero])
  constructor
  · norm_num [playerStart, setupMoveSettings]
  · rw [hmain]
    simp only [playerStart, setupMoveSettings, Vec2.lerp, Vec2.smul, Vec2.zero]
    rw [Ne, Vec2.eq_iff]
    norm_num

/-- C2 (amended): starting from rest with only the right key pressed for one
tick at `dt = 0.1`, `speed = 5`, `accel = 20`, the unclamped lerp parameter is
`accel * delta = 2.0`, so the velocity is extrapolated past the target to
(10, 0); facing becomes RIGHT and the walking flag becomes true. -/
theorem C2_amended :
    (get_player_input kRight (1 / 10) playerStart).vel = ⟨10, 0⟩ ∧
    (get_player_input kRight (1 / 10) playerStart).facing = FacingDirection.RIGHT ∧
    (get_player_input kRight (1 / 10) playerStart).settings.is_walking = true ∧
    playerStart.settings.accel * (1 / 10) = 2 := by
  have hmain := get_player_input_walking kRight (1 / 10) playerStart ⟨1, 0⟩
    FacingDirection.RIGHT (resolveInput_kRight _) normalizeOrZero_right
    (by simp [Vec2.zero])
  refine ⟨?_, ?_, ?_, ?_⟩
  · rw [hmain]
    simp only [playerStart, setupMoveSettings, Vec2.lerp, Vec2.smul, Vec2.zero]
    rw [Vec2.eq_iff]
    norm_num
  · rw [hmain]
  · rw [hmain]
  · norm_num [playerStart, setupMoveSettings]

/-- C5: when opposite-axis keys are pressed together, the later-evaluated key
in the order left, right, up, down wins its axis (right overwrites left, down
overwrites up), and the facing direction ends as the last key in that order
that was pressed (unchanged when none is pressed). -/
theorem C5_overwrite_order :
    (∀ (k : Keys) (f0 : FacingDirection),
      k.left = true → k.right = true → (resolveInput k f0).1.x = 1) ∧
    (∀ (k : Keys) (f0 : FacingDirection),
      k.up = true → k.down = true → (resolveInput k f0).1.y = -1) ∧
    (∀ (k : Keys) (f0 : FacingDirection),
      (resolveInput k f0).2 =
        if k.down then FacingDirection.DOWN
        else if k.up then FacingDirection.UP
        else if k.right then FacingDirection.RIGHT
        else if k.left then FacingDirection.LEFT
        else f0) := by
  refine ⟨?_, ?_, ?_⟩ <;>
    · intro k f0
      obtain ⟨l, r, u, d⟩ := k
      cases l <;> cases r <;> cases u <;> cases d <;> simp [resolveInput]

/-- Witness for C5: all four keys held at once, starting facing LEFT. -/
theorem C5_overwrite_order_witness :
    (resolveInput ⟨true, true, true, true⟩ FacingDirection.LEFT).1.x = 1 ∧
    (resolveInput ⟨true, true, true, true⟩ FacingDirection.LEFT).1.y = -1 ∧
    (resolveInput ⟨true, true, true, true⟩ FacingDirection.LEFT).2 =
      FacingDirection.DOWN := by
  refine ⟨C5_overwrite_order.1 ⟨true, true, true, true⟩ FacingDirection.LEFT rfl rfl,
    C5_overwrite_order.2.1 ⟨true, true, true, true⟩ FacingDirection.LEFT rfl rfl,
    (C5_overwrite_order.2.2 ⟨true, true, true, true⟩ FacingDirection.LEFT).trans
      (by simp)⟩

/-- C6: for every non-empty set of pressed direction keys the resolved
direction has length exactly 1 (diagonals included); each single key yields
the unit vector with the correct sign on exactly one axis and the matching
facing; with no key pressed the resolved direction is (0,0). -/
theorem C6_direction_unit :
    (∀ (k : Keys) (f0 : FacingDirection),
      (k.left = true ∨ k.right = true ∨ k.up = true ∨ k.down = true) →
      ((resolveInput k f0).1.normalizeOrZero).length = 1) ∧
    (∀ f0, (resolveInput kLeft f0).1.normalizeOrZero = ⟨-1, 0⟩ ∧
      (resolveInput kLeft f0).2 = FacingDirection.LEFT) ∧
    (∀ f0, (resolveInput kRight f0).1.normalizeOrZero = ⟨1, 0⟩ ∧
      (resolveInput kRight f0).2 = FacingDirection.RIGHT) ∧
    (∀ f0, (resolveInput kUp f0).1.normalizeOrZero = ⟨0, 1⟩ ∧
      (resolveInput kUp f0).2 = FacingDirection.UP) ∧
    (∀ f0, (resolveInput kDown f0).1.normalizeOrZero = ⟨0, -1⟩ ∧
      (resolveInput kDown f0).2 = FacingDirection.DOWN) ∧
    (∀ (k : Keys) (f0 : FacingDirection),
      k.left = false → k.right = false → k.up = false → k.down = false →
      (resolveInput k f0).1.normalizeOrZero = Vec2.zero) := by
  refine ⟨?_, ?_, ?_, ?_, ?_, ?_⟩
  · intro k f0 h
    obtain ⟨l, r, u, d⟩ := k
    have hne : (resolveInput ⟨l, r, u, d⟩ f0).1 ≠ Vec2.zero := by
      cases l <;> cases r <;> cases u <;> cases d <;>
        simp_all [resolveInput, Vec2.zero]
    exact normalizeOrZero_length _ hne
  · intro f0
    rw [resolveInput_kLeft]
    exact ⟨normalizeOrZero_left, rfl⟩
  · intro f0
    rw [resolveInput_kRight]
    exact ⟨normalizeOrZero_right, rfl⟩
  · intro f0
    rw [resolveInput_kUp]
    exact ⟨normalizeOrZero_up, rfl⟩
  · intro f0
    rw [resolveInput_kDown]
    exact ⟨normalizeOrZero_down, rfl⟩
  · intro k f0 hl hr hu hd
    simp [resolveInput, hl, hr, hu, hd, normalizeOrZero_zero]

/-- Witness for C6 at the diagonal up+right input: the normalized direction
has length 1, and with no key pressed the direction is zero. -/
theorem C6_direction_unit_witness :
    ((⟨false, true, true, false⟩ : Keys).right = true ∨
      (⟨false, true, true, false⟩ : Keys).left = true) ∧
    ((resolveInput ⟨false, true, true, false⟩
        FacingDirection.DOWN).1.normalizeOrZero).length = 1 ∧
    (resolveInput kNone FacingDirection.DOWN).1.normalizeOrZero = Vec2.zero := by
  refine ⟨Or.inl rfl, ?_, ?_⟩
  · exact C6_direction_unit.1 ⟨false, true, true, false⟩ FacingDirection.DOWN
      (Or.inr (Or.inl rfl))
  · exact C6_direction_unit.2.2.2.2.2 kNone FacingDirection.DOWN rfl rfl rfl rfl

/-- C3 (counterexample): the claimed speed ceiling fails for some positive
delta time: at `dt = 0.1` (so the lerp parameter is `20 * 0.1 = 2`), one tick
of sustained right-key input from rest — a velocity of magnitude `0 ≤ 5` —
produces a velocity of magnitude 10 > 5. -/
theorem C3_counterexample :
    (0 : ℝ) < 1 / 10 ∧
    singleKey kRight ∧
    playerStart.vel.length ≤ 5 ∧
    ((runTicks (fun _ => kRight) (1 / 10) playerStart 1).vel).length > 5 := by
  refine ⟨by norm_num, Or.inr (Or.inl rfl), ?_, ?_⟩
  · rw [show playerStart.vel = Vec2.zero from rfl, Vec2.length_zero]
    norm_num
  · have h1 : runTicks (fun _ => kRight) (1 / 10) playerStart 1 =
        get_player_input kRight (1 / 10) playerStart := rfl
    have hmain := get_player_input_walking kRight (1 / 10) playerStart ⟨1, 0⟩
      FacingDirection.RIGHT (resolveInput_kRight _) normalizeOrZero_right
      (by simp [Vec2.zero])
    have hvel : (get_player_input kRight (1 / 10) playerStart).vel = ⟨10, 0⟩ := by
      rw [hmain]
      simp only [playerStart, setupMoveSettings, Vec2.lerp, Vec2.smul, Vec2.zero]
      rw [Vec2.eq_iff]
      norm_num
    rw [h1, hvel, Vec2.length_axis_x]
    norm_num

/-- C3 (amended): under sustained single-key input, for every number of ticks
and every positive delta time with `accel * dt ≤ 1` (so the lerp parameter
stays in [0, 1]), the velocity magnitude after `get_player_input` never
exceeds the configured max speed 5, starting from any velocity of magnitude
at most 5.  (The unclamped lerp violates the ceiling for larger delta
times.) -/
theorem C3_amended (ks : ℕ → Keys) (dt : ℝ) (p : PlayerState) (n : ℕ)
    (hdt : 0 < dt) (hs : p.settings.speed = 5) (ha : p.settings.accel = 20)
    (hcap : 20 * dt ≤ 1) (hks : ∀ i, singleKey (ks i))
    (h0 : p.vel.length ≤ 5) :
    ((runTicks ks dt p n).vel).length ≤ 5 := by
  have key : ∀ m, ((runTicks ks dt p m).vel).normSq ≤ 5 ^ 2 := by
    intro m
    induction m with
    | zero => exact (Vec2.length_le_iff p.vel 5 (by norm_num)).mp h0
    | succ m ih =>
      have hset := runTicks_settings ks dt p m
      have hsm : (runTicks ks dt p m).settings.speed = 5 := hset.1.trans hs
      have ham : (runTicks ks dt p m).settings.accel = 20 := hset.2.1.trans ha
      have ht0 : 0 ≤ (runTicks ks dt p m).settings.accel * dt := by
        rw [ham]
        linarith
      have ht1 : (runTicks ks dt p m).settings.accel * dt ≤ 1 := by
        rw [ham]
        exact hcap
      have hv : (runTicks ks dt p m).vel.normSq ≤
          (runTicks ks dt p m).settings.speed ^ 2 := by
        rw [hsm]
        exact ih
      have hstep := get_player_input_singleKey_normSq (ks m) dt
        (runTicks ks dt p m) (hks m) ht0 ht1 hv
      rw [hsm] at hstep
      exact hstep
  exact (Vec2.length_le_iff _ 5 (by norm_num)).mpr (key n)

/-- Witness for C3 (amended) at `dt = 0.01`, three ticks of right-key input
from the `setup` state. -/
theorem C3_amended_witness :
    (0 : ℝ) < 1 / 100 ∧ 20 * (1 / 100 : ℝ) ≤ 1 ∧
    ((runTicks (fun _ => kRight) (1 / 100) playerStart 3).vel).length ≤ 5 := by
  refine ⟨by norm_num, by norm_num, ?_⟩
  apply C3_amended (fun _ => kRight) (1 / 100) playerStart 3 (by norm_num) rfl rfl
    (by norm_num) (fun i => Or.inr (Or.inl rfl))
  rw [show playerStart.vel = Vec2.zero from rfl, Vec2.length_zero]
  norm_num

/-- C4 (counterexample): with no key pressed, at the positive delta time
`dt = 0.2` the lerp parameter is `fric * dt = 3`, so from velocity (1, 0) one
tick yields (-2, 0): the x component reverses sign (overshoots past zero) and
the magnitude grows from 1 to 2 instead of decreasing. -/
theorem C4_counterexample :
    (0 : ℝ) < 1 / 5 ∧
    (get_player_input kNone (1 / 5) playerMoving).vel = ⟨-2, 0⟩ ∧
    (get_player_input kNone (1 / 5) playerMoving).vel.x * playerMoving.vel.x < 0 ∧
    (get_player_input kNone (1 / 5) playerMoving).vel.length >
      playerMoving.vel.length := by
  have hvel : (get_player_input kNone (1 / 5) playerMoving).vel = ⟨-2, 0⟩ := by
    rw [get_player_input_kNone]
    simp only [playerMoving, setupMoveSettings]
    rw [Vec2.eq_iff]
    norm_num
  refine ⟨by norm_num, hvel, ?_, ?_⟩
  · rw [hvel]
    norm_num [playerMoving]
  · rw [hvel, show playerMoving.vel = (⟨1, 0⟩ : Vec2) from rfl,
      Vec2.length_axis_x, Vec2.length_axis_x]
    norm_num

/-- C4 (amended): with no key pressed on every tick and a positive delta time
satisfying `fric * dt ≤ 1` (lerp parameter in [0, 1]), the velocity magnitude
is monotonically non-increasing and tends to zero, and no component ever
reverses sign or overshoots past zero.  (For larger delta times the unclamped
lerp overshoots.) -/
theorem C4_amended (dt : ℝ) (p : PlayerState) (hdt : 0 < dt)
    (hf : p.settings.fric = 15) (hcap : 15 * dt ≤ 1) :
    (∀ n, ((runTicks (fun _ => kNone) dt p (n + 1)).vel).length ≤
      ((runTicks (fun _ => kNone) dt p n).vel).length) ∧
    (∀ n, 0 ≤ (runTicks (fun _ => kNone) dt p (n + 1)).vel.x *
        (runTicks (fun _ => kNone) dt p n).vel.x ∧
      0 ≤ (runTicks (fun _ => kNone) dt p (n + 1)).vel.y *
        (runTicks (fun _ => kNone) dt p n).vel.y ∧
      |(runTicks (fun _ => kNone) dt p (n + 1)).vel.x| ≤
        |(runTicks (fun _ => kNone) dt p n).vel.x| ∧
      |(runTicks (fun _ => kNone) dt p (n + 1)).vel.y| ≤
        |(runTicks (fun _ => kNone) dt p n).vel.y|) ∧
    Filter.Tendsto (fun n => ((runTicks (fun _ => kNone) dt p n).vel).length)
      Filter.atTop (nhds 0) := by
  have hc0 : 0 ≤ 1 - 15 * dt := by linarith
  have hc1 : 1 - 15 * dt < 1 := by linarith
  have hstep : ∀ n, (runTicks (fun _ => kNone) dt p (n + 1)).vel =
      ⟨(1 - 15 * dt) * (runTicks (fun _ => kNone) dt p n).vel.x,
        (1 - 15 * dt) * (runTicks (fun _ => kNone) dt p n).vel.y⟩ := by
    intro n
    have hfn : (runTicks (fun _ => kNone) dt p n).settings.fric = 15 :=
      (runTicks_settings _ dt p n).2.2.trans hf
    show (get_player_input kNone dt (runTicks (fun _ => kNone) dt p n)).vel = _
    rw [get_player_input_kNone]
    rw [hfn]
  have hlen : ∀ n, ((runTicks (fun _ => kNone) dt p (n + 1)).vel).length =
      (1 - 15 * dt) * ((runTicks (fun _ => kNone) dt p n).vel).length := by
    intro n
    rw [hstep n]
    exact Vec2.length_scale _ _ hc0
  refine ⟨?_, ?_, ?_⟩
  · intro n
    rw [hlen n]
    exact mul_le_of_le_one_left (Vec2.length_nonneg _) hc1.le
  · intro n
    rw [hstep n]
    dsimp only
    refine ⟨?_, ?_, ?_, ?_⟩
    · nlinarith [sq_nonneg (runTicks (fun _ => kNone) dt p n).vel.x]
    · nlinarith [sq_nonneg (runTicks (fun _ => kNone) dt p n).vel.y]
    · rw [abs_mul, abs_of_nonneg hc0]
      exact mul_le_of_le_one_left (abs_nonneg _) hc1.le
    · rw [abs_mul, abs_of_nonneg hc0]
      exact mul_le_of_le_one_left (abs_nonneg _) hc1.le
  · have hgeo : ∀ n, ((runTicks (fun _ => kNone) dt p n).vel).length =
        (1 - 15 * dt) ^ n * (p.vel).length := by
      intro n
      induction n with
      | zero => simp [runTicks]
      | succ n ih =>
        rw [hlen n, ih, pow_succ]
        ring
    have htend := (tendsto_pow_atTop_nhds_zero_of_lt_one hc0 hc1).mul_const
      ((p.vel).length)
    rw [zero_mul] at htend
    exact Filter.Tendsto.congr (fun n => (hgeo n).symm) htend

/-- Witness for C4 (amended) at `dt = 1/15` from velocity (1, 0). -/
theorem C4_amended_witness :
    (0 : ℝ) < 1 / 15 ∧ 15 * (1 / 15 : ℝ) ≤ 1 ∧
    ((runTicks (fun _ => kNone) (1 / 15) playerMoving 1).vel).length ≤
      ((runTicks (fun _ => kNone) (1 / 15) playerMoving 0).vel).length ∧
    Filter.Tendsto
      (fun n => ((runTicks (fun _ => kNone) (1 / 15) playerMoving n).vel).length)
      Filter.atTop (nhds 0) := by
  have h := C4_amended (1 / 15) playerMoving (by norm_num) rfl (by norm_num)
  exact ⟨by norm_num, by norm_num, h.1 0, h.2.2⟩

/-- C7: on each expiry of the repeating animation timer, `animate_sprites`
sets the frame index to `(old + 1) % 8 + walk base` when walking and to
`(old + 1) % 4 + idle base` when idle; the `setup` bases are the fixed
constants walk{right 0, left 8, up 24, down 16} and idle{right 32, left 40,
up 56, down 48}; the resulting index lies in `[base, base + cycle length)`. -/
theorem C7_frame_advance :
    (∀ (s : SpriteState) (dt : ℝ),
      s.timer.duration ≤ s.timer.elapsed + dt →
      (animate_sprites dt s).atlasIndex =
        (s.atlasIndex + 1) % cycleLen s.settings.is_walking +
          cycleOffset s.indices s.settings.is_walking s.facing ∧
      cycleOffset s.indices s.settings.is_walking s.facing ≤
        (animate_sprites dt s).atlasIndex ∧
      (animate_sprites dt s).atlasIndex <
        cycleOffset s.indices s.settings.is_walking s.facing +
          cycleLen s.settings.is_walking) ∧
    (walkOffset setupAnimationInd FacingDirection.RIGHT = 0 ∧
      walkOffset setupAnimationInd FacingDirection.LEFT = 8 ∧
      walkOffset setupAnimationInd FacingDirection.UP = 24 ∧
      walkOffset setupAnimationInd FacingDirection.DOWN = 16 ∧
      idleOffset setupAnimationInd FacingDirection.RIGHT = 32 ∧
      idleOffset setupAnimationInd FacingDirection.LEFT = 40 ∧
      idleOffset setupAnimationInd FacingDirection.UP = 56 ∧
      idleOffset setupAnimationInd FacingDirection.DOWN = 48) := by
  constructor
  · intro s dt h
    have hidx : (animate_sprites dt s).atlasIndex =
        nextIndex s.indices s.settings.is_walking s.facing s.atlasIndex := by
      simp only [animate_sprites]
      rw [if_pos h]
    rw [hidx]
    have h4 : (s.atlasIndex + 1) % 4 < 4 := Nat.mod_lt _ (by norm_num)
    have h8 : (s.atlasIndex + 1) % 8 < 8 := Nat.mod_lt _ (by norm_num)
    cases hw : s.settings.is_walking <;>
      simp [nextIndex, cycleLen, cycleOffset, hw] <;> omega
  · exact ⟨rfl, rfl, rfl, rfl, rfl, rfl, rfl, rfl⟩

/-- Witness for C7: a walk-left state at frame 13 whose timer expires
advances to `(13 + 1) % 8 + 8 = 14`. -/
theorem C7_frame_advance_witness :
    spriteWalkLeft.timer.duration ≤ spriteWalkLeft.timer.elapsed + 1 / 10 ∧
    (animate_sprites (1 / 10) spriteWalkLeft).atlasIndex = 14 := by
  have hexp : spriteWalkLeft.timer.duration ≤ spriteWalkLeft.timer.elapsed + 1 / 10 := by
    norm_num [spriteWalkLeft]
  refine ⟨hexp, ?_⟩
  rw [(C7_frame_advance.1 spriteWalkLeft (1 / 10) hexp).1]
  norm_num [spriteWalkLeft, cycleLen, cycleOffset, walkOffset, setupAnimationInd]

/-- C8: while the animation timer has not finished, `animate_sprites` leaves
the frame index unchanged; at the first expiry after a facing/gait change the
in-cycle phase is preserved: if the old index was `base + phase` for any of
the eight `setup` cycles, the new index is the current cycle's base plus
`(phase + 1) mod (current cycle length)`. -/
theorem C8_phase_preserved :
    (∀ (s : SpriteState) (dt : ℝ),
      s.timer.elapsed + dt < s.timer.duration →
      (animate_sprites dt s).atlasIndex = s.atlasIndex) ∧
    (∀ (s : SpriteState) (dt : ℝ) (g0 : Bool) (f0 : FacingDirection) (ph : ℕ),
      s.indices = setupAnimationInd →
      s.timer.duration ≤ s.timer.elapsed + dt →
      s.atlasIndex = cycleOffset setupAnimationInd g0 f0 + ph →
      ph < cycleLen g0 →
      (animate_sprites dt s).atlasIndex =
        cycleOffset setupAnimationInd s.settings.is_walking s.facing +
          (ph + 1) % cycleLen s.settings.is_walking) := by
  constructor
  · intro s dt h
    simp only [animate_sprites]
    rw [if_neg (not_le.mpr h)]
  · intro s dt g0 f0 ph hind hexp hidx hph
    have hnew : (animate_sprites dt s).atlasIndex =
        nextIndex s.indices s.settings.is_walking s.facing s.atlasIndex := by
      simp only [animate_sprites]
      rw [if_pos hexp]
    rw [hnew, hind, hidx]
    revert hph
    cases hw : s.settings.is_walking <;> cases g0 <;> cases f0 <;> cases s.facing <;>
      simp [nextIndex, cycleLen, cycleOffset, walkOffset, idleOffset,
        setupAnimationInd] <;> omega

/-- Witness for C8: the timer not yet expired leaves frame 19 unchanged; a
walk-down frame 19 (base 16, phase 3) switched to idle-up advances at expiry
to `56 + (3 + 1) % 4 = 56`. -/
theorem C8_phase_preserved_witness :
    spriteIdleUp.timer.elapsed + 1 / 100 < spriteIdleUp.timer.duration ∧
    (animate_sprites (1 / 100) spriteIdleUp).atlasIndex = spriteIdleUp.atlasIndex ∧
    spriteIdleUp.indices = setupAnimationInd ∧
    spriteIdleUp.timer.duration ≤ spriteIdleUp.timer.elapsed + 1 / 10 ∧
    spriteIdleUp.atlasIndex =
      cycleOffset setupAnimationInd true FacingDirection.DOWN + 3 ∧
    (3 : ℕ) < cycleLen true ∧
    (animate_sprites (1 / 10) spriteIdleUp).atlasIndex =
      cycleOffset setupAnimationInd spriteIdleUp.settings.is_walking
          spriteIdleUp.facing +
        (3 + 1) % cycleLen spriteIdleUp.settings.is_walking := by
  have h1 : spriteIdleUp.timer.elapsed + 1 / 100 < spriteIdleUp.timer.duration := by
    norm_num [spriteIdleUp]
  have h2 : spriteIdleUp.timer.duration ≤ spriteIdleUp.timer.elapsed + 1 / 10 := by
    norm_num [spriteIdleUp]
  have h3 : spriteIdleUp.indices = setupAnimationInd := rfl
  have h4 : spriteIdleUp.atlasIndex =
      cycleOffset setupAnimationInd true FacingDirection.DOWN + 3 := by
    norm_num [spriteIdleUp, cycleOffset, walkOffset, setupAnimationInd]
  have h5 : (3 : ℕ) < cycleLen true := by norm_num [cycleLen]
  exact ⟨h1, C8_phase_preserved.1 spriteIdleUp (1 / 100) h1, h3, h2, h4, h5,
    C8_phase_preserved.2 spriteIdleUp (1 / 10) true FacingDirection.DOWN 3 h3 h2 h4 h5⟩

/-- C9 (counterexample): `update_camera` aborts even when its camera
singleton is present and unique — it also asserts the player singleton
(`player.single()`), so with exactly one camera and zero players the process
still aborts, against the claim's "aborts iff the camera is absent or not
unique". -/
theorem C9_counterexample :
    ([setupCamera] : List CameraState).length = 1 ∧
    update_camera_system [setupCamera] ([] : List Vec3) (1 / 10) =
      Except.error QueryError.notExactlyOne :=
  ⟨rfl, rfl⟩

/-- C9 (amended): `get_player_input` aborts iff the player singleton is
absent or not unique; `update_camera` aborts iff the camera singleton or the
player singleton is absent or not unique; in every aborting case the result
is the bare error — no component state is produced or modified before the
abort. -/
theorem C9_amended :
    (∀ (players : List PlayerState) (k : Keys) (dt : ℝ),
      (∃ q, get_player_input_system players k dt = Except.ok q) ↔
        players.length = 1) ∧
    (∀ (players : List PlayerState) (k : Keys) (dt : ℝ),
      players.length ≠ 1 →
      get_player_input_system players k dt =
        Except.error QueryError.notExactlyOne) ∧
    (∀ (cams : List CameraState) (ptrans : List Vec3) (dt : ℝ),
      (∃ c, update_camera_system cams ptrans dt = Except.ok c) ↔
        (cams.length = 1 ∧ ptrans.length = 1)) ∧
    (∀ (cams : List CameraState) (ptrans : List Vec3) (dt : ℝ),
      ¬(cams.length = 1 ∧ ptrans.length = 1) →
      update_camera_system cams ptrans dt =
        Except.error QueryError.notExactlyOne) := by
  refine ⟨?_, ?_, ?_, ?_⟩
  · intro players k dt
    rcases players with _ | ⟨p, _ | ⟨q, t⟩⟩ <;>
      simp [get_player_input_system, singleMut, Except.map]
  · intro players k dt h
    show (singleMut players).map _ = _
    rw [singleMut_error players h]
    rfl
  · intro cams ptrans dt
    rcases cams with _ | ⟨c, _ | ⟨c2, ct⟩⟩ <;>
      rcases ptrans with _ | ⟨q, _ | ⟨q2, qt⟩⟩ <;>
        simp [update_camera_system, singleMut, Except.map, Except.bind]
  · intro cams ptrans dt h
    by_cases hc : cams.length = 1
    · have hp : ptrans.length ≠ 1 := fun hp0 => h ⟨hc, hp0⟩
      obtain ⟨c, rfl⟩ : ∃ c, cams = [c] := by
        rcases cams with _ | ⟨c, _ | ⟨c2, ct⟩⟩ <;> simp_all
      show (singleMut [c]).bind _ = _
      rw [show (singleMut [c] : Except QueryError CameraState) = Except.ok c from rfl]
      show (singleMut ptrans).map _ = _
      rw [singleMut_error ptrans hp]
      rfl
    · show (singleMut cams).bind _ = _
      rw [singleMut_error cams hc]
      rfl

/-- Witness for C9 (amended): zero players makes `get_player_input` abort;
one camera but zero players makes `update_camera` abort. -/
theorem C9_amended_witness :
    (([] : List PlayerState).length ≠ 1 ∧
      get_player_input_system [] kRight (1 / 10) =
        Except.error QueryError.notExactlyOne) ∧
    (¬(([setupCamera] : List CameraState).length = 1 ∧
        ([] : List Vec3).length = 1) ∧
      update_camera_system [setupCamera] ([] : List Vec3) (1 / 5) =
        Except.error QueryError.notExactlyOne) := by
  have h1 : ([] : List PlayerState).length ≠ 1 := by norm_num
  have h2 : ¬(([setupCamera] : List CameraState).length = 1 ∧
      ([] : List Vec3).length = 1) := by simp
  exact ⟨⟨h1, C9_amended.2.1 [] kRight (1 / 10) h1⟩,
    ⟨h2, C9_amended.2.2.2 [setupCamera] [] (1 / 5) h2⟩⟩

/-- C10: `setup` spawns the player exactly once, with facing DOWN, walking
flag false, velocity (0,0), a repeating 0.1s animation timer starting at 0,
and sprite frame index 0 — an index inside the walk-right cycle
`[0, 0 + 8)` and outside the idle-down cycle `[48, 48 + 4)` selected by the
initial facing/gait, so the initially displayed frame does not belong to the
initial state's cycle. -/
theorem C10_setup_player :
    setupSpawnKinds.count SpawnKind.player = 1 ∧
    setupPlayer.facing = FacingDirection.DOWN ∧
    setupPlayer.settings.is_walking = false ∧
    setupPlayer.vel = Vec2.zero ∧
    setupPlayer.timer.duration = 1 / 10 ∧
    setupPlayer.timer.elapsed = 0 ∧
    setupPlayer.timer.mode = TimerMode.Repeating ∧
    setupPlayer.atlasIndex = 0 ∧
    walkOffset setupPlayer.indices FacingDirection.RIGHT ≤ setupPlayer.atlasIndex ∧
    setupPlayer.atlasIndex <
      walkOffset setupPlayer.indices FacingDirection.RIGHT + 8 ∧
    ¬(idleOffset setupPlayer.indices FacingDirection.DOWN ≤ setupPlayer.atlasIndex ∧
      setupPlayer.atlasIndex <
        idleOffset setupPlayer.indices FacingDirection.DOWN + 4) := by
  refine ⟨by decide, rfl, rfl, rfl, rfl, rfl, rfl, rfl, ?_, ?_, ?_⟩
  · norm_num [walkOffset, setupPlayer, setupAnimationInd]
  · norm_num [walkOffset, setupPlayer, setupAnimationInd]
  · norm_num [idleOffset, setupPlayer, setupAnimationInd]

end RobGame
